import Mathlib

/-!
# Verification of the IDBee operation engine (src/index.js)

Shallow embedding of the final revision of `src/index.js`: the operation
resolver chains (`Operations.get` / `Operations.put` / `Operations.delete`
built from `OperationChainHandler`), the range translator
(`Operations.#createRange`), the cursor walks, and the settlement behaviour
of `IDBee.transaction`.

Modelling conventions:
* JS runtime values are `JSValue`; `isType(x, "Undefined")` on an options
  field corresponds to an `Option` field being `none`.
* A supplied `where` argument is a `WhereArg`: either a callable function
  (`.fn`, modelled as a Lean function on records) or any other present
  value (`.nonFn`).
* An object store is an ordered list of `Entry` (primary key plus record
  value); IndexedDB keys are modelled as numbers or strings (`validKey`),
  compared with `jsKeyEq` / `jsKeyLT`.
* Each `onsuccess`/`onerror` request pair is modelled as an
  `Except JSError` result; a synchronous `throw` inside a chain handler is
  an `.error` as well.  A call that falls off the end of a handler chain
  returns the plain value `undefined` (`OpResult.undefined`), which is distinct
  from a request that resolves with the value `undefined`
  (`OpResult.value .undefined`).
-/

set_option autoImplicit false

/-- JS runtime values at the granularity the library inspects: the library
only ever asks whether a value is undefined, whether it is a function,
whether it is truthy, whether it is strictly `=== true`, and reads object
fields. Functions are carried separately (`WhereArg`), so `JSValue` only
keeps an opaque function tag for truthiness. -/
inductive JSValue where
  | undefined
  | nullv
  | bool (b : Bool)
  | num (n : Int)
  | str (s : String)
  | obj (fields : List (String × JSValue))
  | fnObj
deriving Repr

/-- JS truthiness (`if (x)`): `undefined`, `null`, `false`, `0` and the
empty string are falsy; every object (even `{}`) and function is truthy. -/
def JSValue.truthy : JSValue → Bool
  | .undefined => false
  | .nullv => false
  | .bool b => b
  | .num n => n != 0
  | .str s => s != ""
  | .obj _ => true
  | .fnObj => true

/-- Property access `v[name]` on a record: field lookup on objects,
`undefined` otherwise. -/
def JSValue.getField (v : JSValue) (name : String) : JSValue :=
  match v with
  | .obj fields =>
    match fields.lookup name with
    | some w => w
    | none => .undefined
  | _ => .undefined

/-- Strict comparison `x === true`, the test used by the cursor-delete
handlers of the source. -/
def JSValue.isStrictTrue : JSValue → Bool
  | .bool true => true
  | _ => false

/-- Valid IndexedDB keys in this model: numbers and strings. -/
def validKey : JSValue → Bool
  | .num _ => true
  | .str _ => true
  | _ => false

/-- IndexedDB key equality on the modelled key types. -/
def jsKeyEq : JSValue → JSValue → Bool
  | .num a, .num b => a == b
  | .str a, .str b => a == b
  | _, _ => false

/-- IndexedDB key ordering on the modelled key types: every number sorts
before every string, numbers and strings compare within their own type. -/
def jsKeyLT : JSValue → JSValue → Bool
  | .num a, .num b => a < b
  | .num _, .str _ => true
  | .str a, .str b => a < b
  | _, _ => false

/-- Non-strict key order. -/
def jsKeyLE (a b : JSValue) : Bool :=
  jsKeyLT a b || jsKeyEq a b

/-- Errors surfaced by the engine: the synchronous `TypeError`s the library
throws, and engine-side request/scope errors. -/
inductive JSError where
  | typeError (msg : String)
  | engineError (msg : String)
deriving Repr, DecidableEq

/-- A present `where` argument: either a callable predicate (a Lean
function from the record to the predicate's returned value) or some other,
non-callable present value. -/
inductive WhereArg where
  | fn (f : JSValue → JSValue)
  | nonFn (v : JSValue)

/-- Cursor directions accepted by `openCursor`. -/
inductive Direction where
  | next
  | prev
  | nextunique
  | prevunique
deriving Repr, DecidableEq

/-- The `query` options record `{start?, end?, only?}` (`end` is a Lean
keyword, hence `end_`). -/
structure Query where
  start : Option JSValue
  end_ : Option JSValue
  only : Option JSValue

/-- `IDBKeyRange` values produced by `Operations.#createRange`. -/
inductive IDBKeyRange where
  | only (v : JSValue)
  | bound (lower upper : JSValue)
  | lowerBound (v : JSValue)
  | upperBound (v : JSValue)
deriving Repr

/-- `Operations.#createRange(query = {})`: `only` is checked first and wins;
then `start` and `end` together, then `start` alone, then `end` alone;
with no bound the function returns `undefined` (`none`), which IndexedDB
treats as an unbounded range. -/
def Operations.createRange (query : Option Query) : Option IDBKeyRange :=
  let q := query.getD ⟨none, none, none⟩
  match q.only with
  | some o => some (.only o)
  | none =>
    match q.start, q.end_ with
    | some s, some e => some (.bound s e)
    | some s, none => some (.lowerBound s)
    | none, some e => some (.upperBound e)
    | none, none => none

/-- Whether a key falls inside a (possibly absent, i.e. unbounded) range;
`bound` is inclusive on both ends, as in the source, which never passes
the open flags. -/
def rangeContains (r : Option IDBKeyRange) (k : JSValue) : Bool :=
  match r with
  | none => true
  | some (.only v) => jsKeyEq k v
  | some (.bound lo hi) => jsKeyLE lo k && jsKeyLE k hi
  | some (.lowerBound lo) => jsKeyLE lo k
  | some (.upperBound hi) => jsKeyLE k hi

/-- One object-store entry: primary key and stored record. -/
structure Entry where
  key : JSValue
  value : JSValue
deriving Repr

/-- An object store: its entries in ascending primary-key order. -/
abbrev Store := List Entry

/-- Store invariant: primary keys are pairwise distinct. -/
def distinctKeys : Store → Bool
  | [] => true
  | e :: rest => rest.all (fun x => !jsKeyEq e.key x.key) && distinctKeys rest

/-- Store invariant used by the theorems: valid, pairwise distinct primary
keys. -/
def validStore (s : Store) : Bool :=
  distinctKeys s && s.all (fun e => validKey e.key)

/-- Entries of a store that fall inside a range, in store order: the
sequence an object-store cursor or `getAll` walks. -/
def storeRangeEntries (s : Store) (r : Option IDBKeyRange) : List Entry :=
  s.filter (fun e => rangeContains r e.key)

/-- Drop all later entries whose key (under `keyOf`) repeats an earlier
consecutive key; used for the `nextunique` / `prevunique` directions. -/
def dedupByKey (keyOf : Entry → JSValue) : List Entry → List Entry
  | [] => []
  | [e] => [e]
  | e :: e' :: rest =>
    if jsKeyEq (keyOf e) (keyOf e') then dedupByKey keyOf (e :: rest)
    else e :: dedupByKey keyOf (e' :: rest)

/-- Apply a cursor direction (default `next`) to the in-range entry list:
`prev` walks it backwards, the unique variants additionally skip entries
repeating the previous key. -/
def applyDirection (dir : Option Direction) (keyOf : Entry → JSValue) (es : List Entry) :
    List Entry :=
  match dir.getD .next with
  | .next => es
  | .prev => es.reverse
  | .nextunique => dedupByKey keyOf es
  | .prevunique => (dedupByKey keyOf es).reverse

/-- The index key of an entry under the index named `name`: the indexed
field of the record (index key paths default to the index name in
`open()`). -/
def idxKey (name : String) (e : Entry) : JSValue :=
  e.value.getField name

/-- Insert an entry into an index-ordered list, after all entries whose
index key is not greater (so equally-keyed records stay in primary order). -/
def insertEntry (name : String) (e : Entry) : List Entry → List Entry
  | [] => [e]
  | x :: rest =>
    if jsKeyLT (idxKey name e) (idxKey name x) then e :: x :: rest
    else x :: insertEntry name e rest

/-- The entry sequence of the index named `name`: records that have a valid
indexed field, ordered by index key (records without the indexed field are
absent from the index). -/
def indexEntries (s : Store) (name : String) : List Entry :=
  (s.filter (fun e => validKey (idxKey name e))).foldl
    (fun acc e => insertEntry name e acc) []

/-- `getAll(range, count)` truncation: a supplied count limits the result
list. -/
def truncateCount (count : Option Nat) (l : List JSValue) : List JSValue :=
  match count with
  | some c => l.take c
  | none => l

/-- What one call resolves with, as seen by the caller.  `undefined` is the
plain `undefined` returned when no chain handler matched
(`result === false ? undefined : result`); the other constructors are
resolutions of the single request the matched handler issued. -/
inductive OpResult where
  | undefined
  | value (v : JSValue)
  | list (vs : List JSValue)
  | keys (ks : List JSValue)
deriving Repr

/-- The `cursorGet` success loop of `Operations.get`: for each positioned
entry compute `where(cursor.value)`; a truthy result is pushed onto the
result list; the cursor then continues; exhaustion resolves the list. -/
def cursorGetRun (f : JSValue → JSValue) : List Entry → List JSValue
  | [] => []
  | e :: rest =>
    let r := f e.value
    if r.truthy then r :: cursorGetRun f rest else cursorGetRun f rest

/-- The `cursorUpdate` success loop of `Operations.put`: for each entry a
truthy `where(cursor.value)` issues `cursor.update(callbackResult)`; the
update replaces the record at the entry's primary key and its success
pushes `request.result` (that primary key).  Returns the
(primary key, replacement) pairs in visitation order. -/
def cursorUpdateRun (f : JSValue → JSValue) : List Entry → List (JSValue × JSValue)
  | [] => []
  | e :: rest =>
    let r := f e.value
    if r.truthy then (e.key, r) :: cursorUpdateRun f rest else cursorUpdateRun f rest

/-- The `cursorDelete` success loop of `Operations.delete`: an entry is
deleted exactly when `where(cursor.value) === true`; the delete's success
pushes `request.source.key`.  Returns the deleted entries in visitation
order. -/
def cursorDeleteRun (f : JSValue → JSValue) : List Entry → List Entry
  | [] => []
  | e :: rest =>
    if (f e.value).isStrictTrue then e :: cursorDeleteRun f rest
    else cursorDeleteRun f rest

/-- Look a primary key up in the pairs produced by `cursorUpdateRun`. -/
def assocLookup (ups : List (JSValue × JSValue)) (k : JSValue) : Option JSValue :=
  (ups.find? (fun p => jsKeyEq p.1 k)).map (·.2)

/-- Insert an entry into a store in ascending primary-key order. -/
def insertEntryByKey (e : Entry) : Store → Store
  | [] => [e]
  | x :: rest =>
    if jsKeyLT e.key x.key then e :: x :: rest else x :: insertEntryByKey e rest

/-- The next auto-increment key of a store (stores are created with
`autoIncrement` on the default `"id"` key path in `open()`). -/
def nextAutoKey (s : Store) : JSValue :=
  .num (1 + s.foldl (fun m e => match e.key with
    | .num n => max m n
    | _ => m) 0)

/-- The key a direct `store.put(value, key)` writes at: the explicit key
if supplied, else the record's own `"id"` key-path value, else the
auto-increment counter. -/
def putKeyOf (s : Store) (key : Option JSValue) (v : JSValue) : JSValue :=
  match key with
  | some k => k
  | none =>
    let kp := v.getField "id"
    if validKey kp then kp else nextAutoKey s

/-- Direct `store.put(value, key)`: replace the record at the key if it
exists, otherwise insert in key order; resolves with the key. -/
def storePut (s : Store) (key : Option JSValue) (v : JSValue) : Store × JSValue :=
  let k := putKeyOf s key v
  if s.any (fun e => jsKeyEq e.key k) then
    (s.map (fun e => if jsKeyEq e.key k then ⟨k, v⟩ else e), k)
  else
    (insertEntryByKey ⟨k, v⟩ s, k)

/-- The options record of `Operations.get`; a field is `none` exactly when
`isType(field, "Undefined")` holds in the source. -/
structure GetArgs where
  key : Option JSValue
  index : Option String
  whereArg : Option WhereArg
  query : Option Query
  count : Option Nat
  direction : Option Direction

/-- The options record of `Operations.put`. -/
structure PutArgs where
  key : Option JSValue
  value : Option JSValue
  index : Option String
  whereArg : Option WhereArg
  query : Option Query
  direction : Option Direction

/-- The options record of `Operations.delete`. -/
structure DeleteArgs where
  key : Option JSValue
  value : Option JSValue
  index : Option String
  whereArg : Option WhereArg
  query : Option Query
  direction : Option Direction

/-- The six fetch resolver variants, in the order the source chains them
(`get.next(getAll); getAll.next(indexGet); indexGet.next(indexGetAll);
indexGetAll.next(cursorGet); cursorGet.next(indexCursorGet)`). -/
inductive GetVariant where
  | get
  | getAll
  | indexGet
  | indexGetAll
  | cursorGet
  | indexCursorGet
deriving Repr, DecidableEq

/-- The chain order of the fetch variants. -/
def getChainOrder : List GetVariant :=
  [.get, .getAll, .indexGet, .indexGetAll, .cursorGet, .indexCursorGet]

/-- The guard of each fetch handler, negating the early-return condition of
the source (`if (isType(key,"Undefined") || !isType(index,"Undefined") ||
!isType(where,"Undefined")) return false;` and its five siblings). -/
def getGuard (v : GetVariant) (a : GetArgs) : Bool :=
  match v with
  | .get => !(a.key.isNone || a.index.isSome || a.whereArg.isSome)
  | .getAll => !(a.key.isSome || a.index.isSome || a.whereArg.isSome)
  | .indexGet => !(a.key.isNone || a.index.isNone || a.whereArg.isSome)
  | .indexGetAll => !(a.key.isSome || a.index.isNone || a.whereArg.isSome)
  | .cursorGet => !(a.key.isSome || a.index.isSome || a.whereArg.isNone)
  | .indexCursorGet => !(a.key.isSome || a.index.isNone || a.whereArg.isNone)

/-- Which fetch variant the chain executes: the first guard in chain order
that accepts the options record. -/
def getResolve (a : GetArgs) : Option GetVariant :=
  getChainOrder.find? (fun v => getGuard v a)

/-- The three upsert variants in chain order
(`put.next(cursorUpdate); cursorUpdate.next(indexCursorUpdate)`). -/
inductive PutVariant where
  | put
  | cursorUpdate
  | indexCursorUpdate
deriving Repr, DecidableEq

/-- The chain order of the upsert variants. -/
def putChainOrder : List PutVariant :=
  [.put, .cursorUpdate, .indexCursorUpdate]

/-- The guard of each upsert handler (the direct `put` guard only inspects
`value` and `where`). -/
def putGuard (v : PutVariant) (a : PutArgs) : Bool :=
  match v with
  | .put => !(a.value.isNone || a.whereArg.isSome)
  | .cursorUpdate => !(a.value.isSome || a.index.isSome || a.whereArg.isNone)
  | .indexCursorUpdate => !(a.value.isSome || a.index.isNone || a.whereArg.isNone)

/-- Which upsert variant the chain executes. -/
def putResolve (a : PutArgs) : Option PutVariant :=
  putChainOrder.find? (fun v => putGuard v a)

/-- The four remove variants in chain order (`remove.next(cursorDelete);
cursorDelete.next(indexCursorDelete); indexCursorDelete.next(clear)`). -/
inductive DeleteVariant where
  | remove
  | cursorDelete
  | indexCursorDelete
  | clear
deriving Repr, DecidableEq

/-- The chain order of the remove variants. -/
def deleteChainOrder : List DeleteVariant :=
  [.remove, .cursorDelete, .indexCursorDelete, .clear]

/-- The guard of each remove handler (the cursor guards inspect `value`,
not `key`; `clear` inspects `key`, `index` and `where`). -/
def deleteGuard (v : DeleteVariant) (a : DeleteArgs) : Bool :=
  match v with
  | .remove => !(a.key.isNone || a.index.isSome || a.whereArg.isSome)
  | .cursorDelete => !(a.value.isSome || a.index.isSome || a.whereArg.isNone)
  | .indexCursorDelete => !(a.value.isSome || a.index.isNone || a.whereArg.isNone)
  | .clear => !(a.key.isSome || a.index.isSome || a.whereArg.isSome)

/-- Which remove variant the chain executes. -/
def deleteResolve (a : DeleteArgs) : Option DeleteVariant :=
  deleteChainOrder.find? (fun v => deleteGuard v a)

/-- `OperationChainHandler.run`, applied to the already-evaluated handler
bodies in chain order: a thrown `TypeError` propagates, a truthy result
(the handler's request promise) is returned, `false` hands over to the
next handler, and falling off the end returns `false` (`.ok none`). -/
def OperationChainHandler.run {β : Type} : List (Except JSError (Option β)) →
    Except JSError (Option β)
  | [] => .ok none
  | r :: rest =>
    match r with
    | .error e => .error e
    | .ok (some b) => .ok (some b)
    | .ok none => OperationChainHandler.run rest

/-- The body of each fetch handler once its guard has accepted: the direct
variants issue one `get`/`getAll` request (on the store or the named
index), the cursor variants first throw `TypeError("where must be a
function")` when the supplied `where` is not callable and otherwise run
the cursor loop over the in-range entries in the requested direction. -/
def getExec (v : GetVariant) (store : Store) (a : GetArgs) : Except JSError OpResult :=
  match v with
  | .get =>
    .ok (.value (match store.find? (fun e => jsKeyEq e.key (a.key.getD .undefined)) with
      | some e => e.value
      | none => .undefined))
  | .getAll =>
    .ok (.list (truncateCount a.count
      ((storeRangeEntries store (Operations.createRange a.query)).map (·.value))))
  | .indexGet =>
    let idx := a.index.getD ""
    .ok (.value (match (indexEntries store idx).find?
        (fun e => jsKeyEq (idxKey idx e) (a.key.getD .undefined)) with
      | some e => e.value
      | none => .undefined))
  | .indexGetAll =>
    let idx := a.index.getD ""
    .ok (.list (truncateCount a.count
      (((indexEntries store idx).filter
        (fun e => rangeContains (Operations.createRange a.query) (idxKey idx e))).map
          (·.value))))
  | .cursorGet =>
    match a.whereArg with
    | some (.fn f) =>
      .ok (.list (cursorGetRun f (applyDirection a.direction (·.key)
        (storeRangeEntries store (Operations.createRange a.query)))))
    | _ => .error (.typeError "where must be a function")
  | .indexCursorGet =>
    match a.whereArg with
    | some (.fn f) =>
      let idx := a.index.getD ""
      .ok (.list (cursorGetRun f (applyDirection a.direction (idxKey idx)
        ((indexEntries store idx).filter
          (fun e => rangeContains (Operations.createRange a.query) (idxKey idx e))))))
    | _ => .error (.typeError "where must be a function")

/-- One fetch handler: guard then body, `false` (`.ok none`) when the guard
rejects. -/
def getHandler (v : GetVariant) (store : Store) (a : GetArgs) :
    Except JSError (Option OpResult) :=
  if getGuard v a then (getExec v store a).map some else .ok none

/-- `Operations.get`: run the six chained fetch handlers in source order and
map a chain miss (`false`) to the plain value `undefined`. -/
def Operations.get (store : Store) (a : GetArgs) : Except JSError OpResult :=
  match OperationChainHandler.run (getChainOrder.map (fun v => getHandler v store a)) with
  | .error e => .error e
  | .ok none => .ok .undefined
  | .ok (some r) => .ok r

/-- Rebuild the store after a cursor-update walk: each updated primary key
takes its replacement value in place; untouched entries are unchanged. -/
def applyUpdates (store : Store) (ups : List (JSValue × JSValue)) : Store :=
  store.map (fun e =>
    match assocLookup ups e.key with
    | some nv => ⟨e.key, nv⟩
    | none => e)

/-- The body of each upsert handler once its guard has accepted. -/
def putExec (v : PutVariant) (store : Store) (a : PutArgs) :
    Except JSError (Store × OpResult) :=
  match v with
  | .put =>
    let (s, k) := storePut store a.key (a.value.getD .undefined)
    .ok (s, .value k)
  | .cursorUpdate =>
    match a.whereArg with
    | some (.fn f) =>
      let ups := cursorUpdateRun f (applyDirection a.direction (·.key)
        (storeRangeEntries store (Operations.createRange a.query)))
      .ok (applyUpdates store ups, .keys (ups.map (·.1)))
    | _ => .error (.typeError "where must be a function")
  | .indexCursorUpdate =>
    match a.whereArg with
    | some (.fn f) =>
      let idx := a.index.getD ""
      let ups := cursorUpdateRun f (applyDirection a.direction (idxKey idx)
        ((indexEntries store idx).filter
          (fun e => rangeContains (Operations.createRange a.query) (idxKey idx e))))
      .ok (applyUpdates store ups, .keys (ups.map (·.1)))
    | _ => .error (.typeError "where must be a function")

/-- One upsert handler: guard then body. -/
def putHandler (v : PutVariant) (store : Store) (a : PutArgs) :
    Except JSError (Option (Store × OpResult)) :=
  if putGuard v a then (putExec v store a).map some else .ok none

/-- `Operations.put`: run the three chained upsert handlers in source order;
a chain miss leaves the store untouched and returns `undefined`. -/
def Operations.put (store : Store) (a : PutArgs) : Except JSError (Store × OpResult) :=
  match OperationChainHandler.run (putChainOrder.map (fun v => putHandler v store a)) with
  | .error e => .error e
  | .ok none => .ok (store, .undefined)
  | .ok (some r) => .ok r

/-- Rebuild the store after a cursor-delete walk: the deleted entries (by
primary key) are removed, every other entry is unchanged. -/
def applyDeletes (store : Store) (dels : List Entry) : Store :=
  store.filter (fun e => !(dels.any (fun d => jsKeyEq d.key e.key)))

/-- The body of each remove handler once its guard has accepted. -/
def deleteExec (v : DeleteVariant) (store : Store) (a : DeleteArgs) :
    Except JSError (Store × OpResult) :=
  match v with
  | .remove =>
    .ok (store.filter (fun e => !jsKeyEq e.key (a.key.getD .undefined)), .value .undefined)
  | .cursorDelete =>
    match a.whereArg with
    | some (.fn f) =>
      let dels := cursorDeleteRun f (applyDirection a.direction (·.key)
        (storeRangeEntries store (Operations.createRange a.query)))
      .ok (applyDeletes store dels, .keys (dels.map (·.key)))
    | _ => .error (.typeError "where must be a function")
  | .indexCursorDelete =>
    match a.whereArg with
    | some (.fn f) =>
      let idx := a.index.getD ""
      let dels := cursorDeleteRun f (applyDirection a.direction (idxKey idx)
        ((indexEntries store idx).filter
          (fun e => rangeContains (Operations.createRange a.query) (idxKey idx e))))
      .ok (applyDeletes store dels, .keys (dels.map (idxKey idx)))
    | _ => .error (.typeError "where must be a function")
  | .clear =>
    .ok ([], .value .undefined)

/-- One remove handler: guard then body. -/
def deleteHandler (v : DeleteVariant) (store : Store) (a : DeleteArgs) :
    Except JSError (Option (Store × OpResult)) :=
  if deleteGuard v a then (deleteExec v store a).map some else .ok none

/-- `Operations.delete`: run the four chained remove handlers in source
order; a chain miss leaves the store untouched and returns `undefined`. -/
def Operations.delete (store : Store) (a : DeleteArgs) :
    Except JSError (Store × OpResult) :=
  match OperationChainHandler.run (deleteChainOrder.map (fun v => deleteHandler v store a)) with
  | .error e => .error e
  | .ok none => .ok (store, .undefined)
  | .ok (some r) => .ok r

/-- The settlement calls that can reach the promise executor of
`IDBee.transaction`, in the real-time order in which they occur:
`callback(objectStores).then(resolve)` maps to `cbResolved`, its
`.catch(reject)` to `cbRejected`, `transaction.oncomplete` to `complete`,
`transaction.onerror` to `error` and `transaction.onabort` to `abort`. -/
inductive TxEvent where
  | cbResolved (v : JSValue)
  | cbRejected (e : JSError)
  | complete
  | error (e : JSError)
  | abort (e : JSError)
deriving Repr

/-- How the transaction call settles. -/
inductive TxOutcome where
  | value (v : JSValue)
  | names (ns : List String)
  | err (e : JSError)
deriving Repr

/-- The settlement a single event attempts: the callback handlers resolve
with the callback's value or reject with its error; `oncomplete` resolves
with the store-name list; `onerror` and `onabort` reject with the scope's
error. -/
def settleOf (storeNames : List String) : TxEvent → TxOutcome
  | .cbResolved v => .value v
  | .cbRejected e => .err e
  | .complete => .names storeNames
  | .error e => .err e
  | .abort e => .err e

/-- `IDBee.transaction`, as a function of the settlement events that occur:
per JS promise semantics only the first `resolve`/`reject` call settles the
returned promise, every later one is ignored; with no event the promise
stays pending (`none`). -/
def IDBee.transaction (storeNames : List String) (events : List TxEvent) :
    Option TxOutcome :=
  events.foldl
    (fun settled ev =>
      match settled with
      | some s => some s
      | none => some (settleOf storeNames ev))
    none

/-- Is the call's eventual result a rejection? -/
def isRejectedCall {α : Type} : Except JSError α → Bool
  | .error _ => true
  | .ok _ => false

/-- The spec's "non-empty replacement object" notion, written from the
spec's words for comparison with the truthiness test the code performs. -/
def specNonEmptyObject : JSValue → Bool
  | .obj (_ :: _) => true
  | _ => false

/-- A result sequence is in strictly descending key order. -/
def strictlyDescending : List JSValue → Bool
  | [] => true
  | [_] => true
  | a :: b :: rest => jsKeyLT b a && strictlyDescending (b :: rest)

/-- A store with records keyed 1..10 (each record is its key's number). -/
def store10 : Store :=
  [⟨.num 1, .num 1⟩, ⟨.num 2, .num 2⟩, ⟨.num 3, .num 3⟩, ⟨.num 4, .num 4⟩,
   ⟨.num 5, .num 5⟩, ⟨.num 6, .num 6⟩, ⟨.num 7, .num 7⟩, ⟨.num 8, .num 8⟩,
   ⟨.num 9, .num 9⟩, ⟨.num 10, .num 10⟩]

/-- Five records whose `userId` values are 1, 2, 5, 5, 5. -/
def demoStore : Store :=
  [⟨.num 1, .obj [("userId", .num 1)]⟩, ⟨.num 2, .obj [("userId", .num 2)]⟩,
   ⟨.num 3, .obj [("userId", .num 5)]⟩, ⟨.num 4, .obj [("userId", .num 5)]⟩,
   ⟨.num 5, .obj [("userId", .num 5)]⟩]

/-- The predicate `r => r.userId === 5`. -/
def demoPred : JSValue → JSValue :=
  fun r => .bool (jsKeyEq (r.getField "userId") (.num 5))

@[simp]
theorem OperationChainHandler.run_nil {β : Type} :
    OperationChainHandler.run ([] : List (Except JSError (Option β))) = .ok none := rfl

@[simp]
theorem OperationChainHandler.run_cons_none {β : Type}
    (rest : List (Except JSError (Option β))) :
    OperationChainHandler.run (.ok none :: rest) = OperationChainHandler.run rest := rfl

@[simp]
theorem OperationChainHandler.run_cons_map_some {β : Type} (x : Except JSError β)
    (rest : List (Except JSError (Option β))) :
    OperationChainHandler.run (x.map some :: rest) = x.map some := by
  cases x <;> rfl

theorem cursorGetRun_eq_filter (f : JSValue → JSValue) (l : List Entry) :
    cursorGetRun f l = (l.map (fun e => f e.value)).filter JSValue.truthy := by
  induction l with
  | nil => rfl
  | cons e rest ih =>
    simp only [cursorGetRun, List.map_cons, List.filter_cons]
    by_cases h : (f e.value).truthy <;> simp [h, ih]

theorem cursorDeleteRun_eq_filter (f : JSValue → JSValue) (l : List Entry) :
    cursorDeleteRun f l = l.filter (fun e => (f e.value).isStrictTrue) := by
  induction l with
  | nil => rfl
  | cons e rest ih =>
    simp only [cursorDeleteRun, List.filter_cons]
    by_cases h : (f e.value).isStrictTrue <;> simp [h, ih]

theorem cursorUpdateRun_eq_filterMap (f : JSValue → JSValue) (l : List Entry) :
    cursorUpdateRun f l =
      l.filterMap (fun e =>
        if (f e.value).truthy then some (e.key, f e.value) else none) := by
  induction l with
  | nil => rfl
  | cons e rest ih =>
    simp only [cursorUpdateRun, List.filterMap_cons]
    by_cases h : (f e.value).truthy <;> simp [h, ih]

theorem cursorUpdateRun_keys (f : JSValue → JSValue) (l : List Entry) :
    (cursorUpdateRun f l).map (·.1) =
      (l.filter (fun e => (f e.value).truthy)).map (·.key) := by
  induction l with
  | nil => rfl
  | cons e rest ih =>
    simp only [cursorUpdateRun, List.filter_cons]
    by_cases h : (f e.value).truthy <;> simp [h, ih]

@[simp]
theorem storeRangeEntries_none (s : Store) : storeRangeEntries s none = s := by
  induction s with
  | nil => rfl
  | cons e rest ih =>
    have he : rangeContains none e.key = true := rfl
    simp only [storeRangeEntries] at ih ⊢
    simp only [List.filter_cons, he, if_true, ih]

theorem jsKeyEq_refl {k : JSValue} (h : validKey k = true) : jsKeyEq k k = true := by
  cases k <;> simp_all [validKey, jsKeyEq]

theorem beqComm {α : Type} [BEq α] [LawfulBEq α] (a b : α) : (a == b) = (b == a) := by
  by_cases h : a = b
  · subst h; rfl
  · rw [beq_eq_false_iff_ne.mpr h, beq_eq_false_iff_ne.mpr (Ne.symm h)]

theorem jsKeyEq_symm (a b : JSValue) : jsKeyEq a b = jsKeyEq b a := by
  cases a <;> cases b <;> simp only [jsKeyEq] <;> exact beqComm ..

theorem distinctKeys_unique {s : Store} (hs : distinctKeys s = true) :
    ∀ a ∈ s, ∀ b ∈ s, jsKeyEq a.key b.key = true → a = b := by
  induction s with
  | nil => simp
  | cons e rest ih =>
    simp only [distinctKeys, Bool.and_eq_true, List.all_eq_true] at hs
    intro a ha b hb hab
    rcases List.mem_cons.1 ha with rfl | ha' <;> rcases List.mem_cons.1 hb with rfl | hb'
    · rfl
    · exact absurd hab (by simpa using hs.1 b hb')
    · rw [jsKeyEq_symm] at hab
      exact absurd hab (by simpa using hs.1 a ha')
    · exact ih hs.2 a ha' b hb' hab

@[simp]
theorem OperationChainHandler.run_cons_error {β : Type} (e : JSError)
    (rest : List (Except JSError (Option β))) :
    OperationChainHandler.run (.error e :: rest) = .error e := rfl

@[simp]
theorem OperationChainHandler.run_cons_some {β : Type} (b : β)
    (rest : List (Except JSError (Option β))) :
    OperationChainHandler.run (.ok (some b) :: rest) = .ok (some b) := rfl

theorem getGuard_unique {a : GetArgs} {v w : GetVariant} (hv : getGuard v a = true)
    (hw : getGuard w a = true) : v = w := by
  cases hk : a.key <;> cases hi : a.index <;> cases hwa : a.whereArg <;>
    cases v <;> cases w <;> simp_all [getGuard]

theorem getResolve_of_guard {a : GetArgs} {v : GetVariant} (h : getGuard v a = true) :
    getResolve a = some v := by
  cases hk : a.key <;> cases hi : a.index <;> cases hwa : a.whereArg <;>
    cases v <;> simp_all [getResolve, getChainOrder, getGuard, List.find?]

theorem Operations.get_of_guard {a : GetArgs} {v : GetVariant} (h : getGuard v a = true)
    (store : Store) : Operations.get store a = getExec v store a := by
  have hu : ∀ w, w ≠ v → getGuard w a = false := by
    intro w hw
    cases hgw : getGuard w a
    · rfl
    · exact absurd (getGuard_unique hgw h) hw
  cases v with
  | get =>
    cases hx : getExec .get store a <;>
      simp [Operations.get, getChainOrder, getHandler, Except.map, h, hx]
  | getAll =>
    have h1 := hu .get (by decide)
    cases hx : getExec .getAll store a <;>
      simp [Operations.get, getChainOrder, getHandler, Except.map, h, h1, hx]
  | indexGet =>
    have h1 := hu .get (by decide)
    have h2 := hu .getAll (by decide)
    cases hx : getExec .indexGet store a <;>
      simp [Operations.get, getChainOrder, getHandler, Except.map, h, h1, h2, hx]
  | indexGetAll =>
    have h1 := hu .get (by decide)
    have h2 := hu .getAll (by decide)
    have h3 := hu .indexGet (by decide)
    cases hx : getExec .indexGetAll store a <;>
      simp [Operations.get, getChainOrder, getHandler, Except.map, h, h1, h2, h3, hx]
  | cursorGet =>
    have h1 := hu .get (by decide)
    have h2 := hu .getAll (by decide)
    have h3 := hu .indexGet (by decide)
    have h4 := hu .indexGetAll (by decide)
    cases hx : getExec .cursorGet store a <;>
      simp [Operations.get, getChainOrder, getHandler, Except.map, h, h1, h2, h3, h4, hx]
  | indexCursorGet =>
    have h1 := hu .get (by decide)
    have h2 := hu .getAll (by decide)
    have h3 := hu .indexGet (by decide)
    have h4 := hu .indexGetAll (by decide)
    have h5 := hu .cursorGet (by decide)
    cases hx : getExec .indexCursorGet store a <;>
      simp [Operations.get, getChainOrder, getHandler, Except.map, h, h1, h2, h3, h4, h5, hx]

theorem Operations.get_of_no_guard {a : GetArgs} (h : getResolve a = none)
    (store : Store) : Operations.get store a = .ok .undefined := by
  have hall := List.find?_eq_none.mp h
  have h1 : getGuard .get a = false := by simpa using hall .get (by simp [getChainOrder])
  have h2 : getGuard .getAll a = false := by simpa using hall .getAll (by simp [getChainOrder])
  have h3 : getGuard .indexGet a = false := by simpa using hall .indexGet (by simp [getChainOrder])
  have h4 : getGuard .indexGetAll a = false := by
    simpa using hall .indexGetAll (by simp [getChainOrder])
  have h5 : getGuard .cursorGet a = false := by
    simpa using hall .cursorGet (by simp [getChainOrder])
  have h6 : getGuard .indexCursorGet a = false := by
    simpa using hall .indexCursorGet (by simp [getChainOrder])
  simp [Operations.get, getChainOrder, getHandler, h1, h2, h3, h4, h5, h6]

theorem Operations.put_of_no_guard {a : PutArgs} (h : putResolve a = none)
    (store : Store) : Operations.put store a = .ok (store, .undefined) := by
  have hall := List.find?_eq_none.mp h
  have h1 : putGuard .put a = false := by simpa using hall .put (by simp [putChainOrder])
  have h2 : putGuard .cursorUpdate a = false := by
    simpa using hall .cursorUpdate (by simp [putChainOrder])
  have h3 : putGuard .indexCursorUpdate a = false := by
    simpa using hall .indexCursorUpdate (by simp [putChainOrder])
  simp [Operations.put, putChainOrder, putHandler, h1, h2, h3]

theorem Operations.delete_of_no_guard {a : DeleteArgs} (h : deleteResolve a = none)
    (store : Store) : Operations.delete store a = .ok (store, .undefined) := by
  have hall := List.find?_eq_none.mp h
  have h1 : deleteGuard .remove a = false := by
    simpa using hall .remove (by simp [deleteChainOrder])
  have h2 : deleteGuard .cursorDelete a = false := by
    simpa using hall .cursorDelete (by simp [deleteChainOrder])
  have h3 : deleteGuard .indexCursorDelete a = false := by
    simpa using hall .indexCursorDelete (by simp [deleteChainOrder])
  have h4 : deleteGuard .clear a = false := by
    simpa using hall .clear (by simp [deleteChainOrder])
  simp [Operations.delete, deleteChainOrder, deleteHandler, h1, h2, h3, h4]

theorem validStore_distinct {s : Store} (hv : validStore s = true) :
    distinctKeys s = true := by
  simp only [validStore, Bool.and_eq_true] at hv
  exact hv.1

theorem validStore_validKey {s : Store} (hv : validStore s = true) :
    ∀ e ∈ s, validKey e.key = true := by
  simp only [validStore, Bool.and_eq_true, List.all_eq_true] at hv
  exact hv.2

theorem applyDeletes_cursorDeleteRun {f : JSValue → JSValue} {s : Store}
    (hv : validStore s = true) :
    applyDeletes s (cursorDeleteRun f s) =
      s.filter (fun e => !(f e.value).isStrictTrue) := by
  unfold applyDeletes
  apply List.filter_congr
  intro e he
  have core : (cursorDeleteRun f s).any (fun d => jsKeyEq d.key e.key) =
      (f e.value).isStrictTrue := by
    rw [cursorDeleteRun_eq_filter]
    by_cases hm : (f e.value).isStrictTrue = true
    · rw [hm]
      exact List.any_eq_true.mpr
        ⟨e, List.mem_filter.mpr ⟨he, hm⟩, jsKeyEq_refl (validStore_validKey hv e he)⟩
    · rw [Bool.not_eq_true] at hm
      rw [hm]
      apply List.any_eq_false.mpr
      intro d hd hkey
      obtain ⟨hds, hdt⟩ := List.mem_filter.mp hd
      have hde : d = e :=
        distinctKeys_unique (validStore_distinct hv) d hds e he hkey
      subst hde
      rw [hm] at hdt
      exact Bool.false_ne_true hdt
  rw [core]

theorem assocLookup_cursorUpdateRun {f : JSValue → JSValue} {s : Store}
    (hv : validStore s = true) {e : Entry} (he : e ∈ s) :
    assocLookup (cursorUpdateRun f s) e.key =
      if (f e.value).truthy then some (f e.value) else none := by
  unfold assocLookup
  rw [cursorUpdateRun_eq_filterMap]
  by_cases hm : (f e.value).truthy = true
  · have hexists : (e.key, f e.value) ∈ s.filterMap
        (fun x => if (f x.value).truthy then some (x.key, f x.value) else none) :=
      List.mem_filterMap.mpr ⟨e, he, by rw [hm]; rfl⟩
    cases hfind : List.find? (fun p => jsKeyEq p.1 e.key)
        (s.filterMap (fun x => if (f x.value).truthy then some (x.key, f x.value) else none)) with
    | none =>
      exact absurd (jsKeyEq_refl (validStore_validKey hv e he))
        (List.find?_eq_none.mp hfind _ hexists)
    | some pr =>
      obtain ⟨d, hds, hdg⟩ := List.mem_filterMap.mp (List.mem_of_find?_eq_some hfind)
      have hdt : (f d.value).truthy = true := by
        by_contra hdt
        rw [Bool.not_eq_true] at hdt
        rw [hdt] at hdg
        exact Option.noConfusion hdg
      rw [hdt] at hdg
      have hpr : pr = (d.key, f d.value) := (Option.some.inj hdg).symm
      have hkey : jsKeyEq d.key e.key = true := by
        have := List.find?_some hfind
        rw [hpr] at this
        exact this
      have hde : d = e :=
        distinctKeys_unique (validStore_distinct hv) d hds e he hkey
      subst hde
      rw [hm, hpr]
      rfl
  · rw [Bool.not_eq_true] at hm
    rw [hm]
    have hnone : List.find? (fun p => jsKeyEq p.1 e.key)
        (s.filterMap (fun x => if (f x.value).truthy then some (x.key, f x.value) else none))
        = none := by
      apply List.find?_eq_none.mpr
      intro pr hpr hkey
      obtain ⟨d, hds, hdg⟩ := List.mem_filterMap.mp hpr
      have hdt : (f d.value).truthy = true := by
        by_contra hdt
        rw [Bool.not_eq_true] at hdt
        rw [hdt] at hdg
        exact Option.noConfusion hdg
      rw [hdt] at hdg
      have hprd : pr = (d.key, f d.value) := (Option.some.inj hdg).symm
      rw [hprd] at hkey
      have hde : d = e :=
        distinctKeys_unique (validStore_distinct hv) d hds e he hkey
      subst hde
      rw [hm] at hdt
      exact Bool.false_ne_true hdt
    rw [hnone]
    rfl

theorem applyUpdates_cursorUpdateRun {f : JSValue → JSValue} {s : Store}
    (hv : validStore s = true) :
    applyUpdates s (cursorUpdateRun f s) =
      s.map (fun e => if (f e.value).truthy then Entry.mk e.key (f e.value) else e) := by
  unfold applyUpdates
  apply List.map_congr_left
  intro e he
  rw [assocLookup_cursorUpdateRun hv he]
  by_cases hm : (f e.value).truthy = true
  · rw [hm]; rfl
  · rw [Bool.not_eq_true] at hm
    rw [hm]; rfl

/-- C1: for every fetch options record whose field-presence pattern matches
one of the six resolver variants, exactly one guard in the chain matches
(any other matching guard is the same variant), the ordered chain resolves
to that variant and `Operations.get` executes exactly its body, and two
requests matching different variants route to different variants. -/
theorem fetch_resolver_exactly_one_variant (a : GetArgs) (v : GetVariant)
    (h : getGuard v a = true) :
    getResolve a = some v ∧
    (∀ w, getGuard w a = true → w = v) ∧
    (∀ store : Store, Operations.get store a = getExec v store a) ∧
    (∀ (b : GetArgs) (w : GetVariant), getGuard w b = true → w ≠ v →
      getResolve b ≠ getResolve a) := by
  refine ⟨getResolve_of_guard h, fun w hw => getGuard_unique hw h,
    fun store => Operations.get_of_guard h store, ?_⟩
  intro b w hwb hne
  rw [getResolve_of_guard hwb, getResolve_of_guard h]
  simp [hne]

/-- Witness for C1 at the direct-key-lookup pattern `{key: 1}`. -/
theorem fetch_resolver_exactly_one_variant_witness :
    getGuard .get ⟨some (.num 1), none, none, none, none, none⟩ = true ∧
    getResolve ⟨some (.num 1), none, none, none, none, none⟩ = some .get :=
  ⟨rfl, (fetch_resolver_exactly_one_variant ⟨some (.num 1), none, none, none, none, none⟩
    .get rfl).1⟩

/-- C7: the range translation is a pure function with `only` precedence:
`only` wins over any `start`/`end` (in particular `{only:5,start:1,end:9}`
translates identically to `{only:5}`), both bounds give a closed interval,
`start` alone a lower bound, `end` alone an upper bound, and no bound at
all the unbounded range. -/
theorem createRange_only_precedence (v s e : JSValue) (qs qe : Option JSValue) :
    Operations.createRange (some ⟨qs, qe, some v⟩) = some (.only v) ∧
    Operations.createRange (some ⟨some (.num 1), some (.num 9), some (.num 5)⟩) =
      Operations.createRange (some ⟨none, none, some (.num 5)⟩) ∧
    Operations.createRange (some ⟨some s, some e, none⟩) = some (.bound s e) ∧
    Operations.createRange (some ⟨some s, none, none⟩) = some (.lowerBound s) ∧
    Operations.createRange (some ⟨none, some e, none⟩) = some (.upperBound e) ∧
    Operations.createRange (some ⟨none, none, none⟩) = none ∧
    Operations.createRange none = none :=
  ⟨rfl, rfl, rfl, rfl, rfl, rfl, rfl⟩

/-- C10: a remove whose options have both `key` and `index` present and
`where` absent matches none of the four delete guards, so the chain issues
no storage request: the store is untouched and the call returns the plain
value `undefined`. -/
theorem remove_key_and_index_matches_no_guard (k : JSValue) (idx : String)
    (value : Option JSValue) (q : Option Query) (d : Option Direction) (store : Store) :
    deleteResolve ⟨some k, value, some idx, none, q, d⟩ = none ∧
    Operations.delete store ⟨some k, value, some idx, none, q, d⟩ = .ok (store, .undefined) := by
  have hres : deleteResolve ⟨some k, value, some idx, none, q, d⟩ = none := by
    simp [deleteResolve, deleteChainOrder, deleteGuard, List.find?]
  exact ⟨hres, Operations.delete_of_no_guard hres store⟩

/-- C2 counterexample: the caller logic resolves with `7`, then a request
inside the scope errors before completion; the call resolves with `7`
instead of rejecting with the scope's error, because `resolve` has already
settled the promise when `onerror` fires. -/
theorem transaction_error_after_callback_counterexample :
    IDBee.transaction ["todos"]
      [.cbResolved (.num 7), .error (.engineError "request failed")] =
      some (.value (.num 7)) ∧
    some (TxOutcome.value (.num 7)) ≠ some (TxOutcome.err (.engineError "request failed")) :=
  ⟨rfl, by simp⟩

/-- C2 amended: the transaction promise settles with the first settlement
signal. If the caller logic's resolution is processed first, the call
resolves with the caller logic's value and any later scope error or abort
is ignored; a scope error or abort rejects the call only when it fires
before the caller logic's resolution is processed. -/
theorem transaction_first_settlement_wins (names : List String) (v : JSValue)
    (e e' : JSError) (rest rest2 rest3 : List TxEvent) :
    IDBee.transaction names (.cbResolved v :: rest) = some (.value v) ∧
    IDBee.transaction names (.error e :: rest2) = some (.err e) ∧
    IDBee.transaction names (.abort e' :: rest3) = some (.err e') := by
  have hfold : ∀ (l : List TxEvent) (s : TxOutcome),
      l.foldl (fun settled ev =>
        match settled with
        | some s' => some s'
        | none => some (settleOf names ev)) (some s) = some s := by
    intro l
    induction l with
    | nil => intro s; rfl
    | cons ev tail ih => intro s; exact ih s
  exact ⟨hfold rest _, hfold rest2 _, hfold rest3 _⟩

/-- C3 counterexample: fetch with both `key` and `where` present matches no
guard; the call is not rejected — it returns the plain value `undefined`,
which an awaiting caller observes as a resolved `undefined`. -/
theorem unsupported_combination_counterexample :
    Operations.get [] ⟨some (.num 1), none, some (.fn fun r => r), none, none, none⟩ =
      .ok .undefined ∧
    isRejectedCall
      (Operations.get [] ⟨some (.num 1), none, some (.fn fun r => r), none, none, none⟩) =
      false :=
  ⟨rfl, rfl⟩

/-- C3 amended: a fetch, upsert or remove whose options match no resolver
guard returns the plain value `undefined` immediately and synchronously —
no storage request is issued and the store is untouched — so the call
resolves to `undefined` rather than rejecting. -/
theorem unsupported_combination_returns_undefined :
    (∀ (store : Store) (a : GetArgs), getResolve a = none →
      Operations.get store a = .ok .undefined) ∧
    (∀ (store : Store) (a : PutArgs), putResolve a = none →
      Operations.put store a = .ok (store, .undefined)) ∧
    (∀ (store : Store) (a : DeleteArgs), deleteResolve a = none →
      Operations.delete store a = .ok (store, .undefined)) :=
  ⟨fun store _ h => Operations.get_of_no_guard h store,
   fun store _ h => Operations.put_of_no_guard h store,
   fun store _ h => Operations.delete_of_no_guard h store⟩

/-- Witness for the amended C3 at concrete unmatched patterns: fetch with
`key` and `where`, upsert with `value` and `where`, remove with `key` and
`index`. -/
theorem unsupported_combination_returns_undefined_witness :
    Operations.get [] ⟨some (.num 1), none, some (.fn fun r => r), none, none, none⟩ =
      .ok .undefined ∧
    Operations.put [] ⟨none, some (.num 2), none, some (.fn fun r => r), none, none⟩ =
      .ok ([], .undefined) ∧
    Operations.delete [] ⟨some (.num 1), none, some "userId", none, none, none⟩ =
      .ok ([], .undefined) :=
  ⟨unsupported_combination_returns_undefined.1 [] _ rfl,
   unsupported_combination_returns_undefined.2.1 [] _ rfl,
   unsupported_combination_returns_undefined.2.2 [] _ rfl⟩

/-- C9: a fetch, upsert or remove whose options select a cursor variant but
whose `where` value is not callable throws `TypeError("where must be a
function")` synchronously.  The result is this error for every store, so no
cursor walk is started, no entry is visited and no entry is mutated. -/
theorem where_not_callable_fails_fast (w : JSValue) (idx : Option String)
    (k k' : Option JSValue) (q : Option Query) (c : Option Nat)
    (d : Option Direction) (store : Store) :
    Operations.get store ⟨none, idx, some (.nonFn w), q, c, d⟩ =
      .error (.typeError "where must be a function") ∧
    Operations.put store ⟨k, none, idx, some (.nonFn w), q, d⟩ =
      .error (.typeError "where must be a function") ∧
    Operations.delete store ⟨k', none, idx, some (.nonFn w), q, d⟩ =
      .error (.typeError "where must be a function") := by
  cases idx with
  | none =>
    refine ⟨?_, ?_, ?_⟩ <;>
      simp [Operations.get, Operations.put, Operations.delete, getChainOrder,
        putChainOrder, deleteChainOrder, getHandler, putHandler, deleteHandler,
        getGuard, putGuard, deleteGuard, getExec, putExec, deleteExec, Except.map]
  | some s =>
    refine ⟨?_, ?_, ?_⟩ <;>
      simp [Operations.get, Operations.put, Operations.delete, getChainOrder,
        putChainOrder, deleteChainOrder, getHandler, putHandler, deleteHandler,
        getGuard, putGuard, deleteGuard, getExec, putExec, deleteExec, Except.map]

/-- C8: a cursor fetch resolves with exactly the predicate's return values
for the entries whose return value is truthy, in visitation order of the
walk; and on the store keyed 1..10 with reverse direction the results come
back in strictly descending key order. -/
theorem cursor_fetch_truthy_in_visitation_order (f : JSValue → JSValue)
    (q : Option Query) (d : Option Direction) (store : Store) :
    Operations.get store ⟨none, none, some (.fn f), q, none, d⟩ =
      .ok (.list (((applyDirection d (fun e => e.key)
        (storeRangeEntries store (Operations.createRange q))).map
          (fun e => f e.value)).filter JSValue.truthy)) ∧
    Operations.get store10 ⟨none, none, some (.fn fun r => r), none, none, some .prev⟩ =
      .ok (.list [.num 10, .num 9, .num 8, .num 7, .num 6, .num 5, .num 4,
        .num 3, .num 2, .num 1]) ∧
    strictlyDescending [.num 10, .num 9, .num 8, .num 7, .num 6, .num 5, .num 4,
      .num 3, .num 2, .num 1] = true := by
  refine ⟨?_, by rfl, by rfl⟩
  have hroute := Operations.get_of_guard
    (a := ⟨none, none, some (.fn f), q, none, d⟩) (v := .cursorGet) rfl store
  rw [hroute]
  simp only [getExec]
  rw [cursorGetRun_eq_filter]

/-- C4: a cursor remove (`where` present, `key` and `value` absent) deletes
exactly the entries on which the predicate returns the boolean `true`
(strict `===`); entries with any other return value, truthy ones included,
are left unchanged, and the reported keys are exactly the deleted ones. -/
theorem cursor_remove_deletes_exactly_strict_true (f : JSValue → JSValue)
    (store : Store) (hv : validStore store = true) :
    Operations.delete store ⟨none, none, none, some (.fn f), none, none⟩ =
      .ok (store.filter (fun e => !(f e.value).isStrictTrue),
        .keys ((store.filter (fun e => (f e.value).isStrictTrue)).map (fun e => e.key))) := by
  have hg : Operations.delete store ⟨none, none, none, some (.fn f), none, none⟩ =
      .ok (applyDeletes store (cursorDeleteRun f store),
        .keys ((cursorDeleteRun f store).map (fun e => e.key))) := by
    simp [Operations.delete, deleteChainOrder, deleteHandler, deleteGuard, deleteExec,
      Operations.createRange, applyDirection, Except.map]
  rw [hg, applyDeletes_cursorDeleteRun hv, cursorDeleteRun_eq_filter]

/-- Witness for C4: with `userId` values 1, 2, 5, 5, 5 the predicate
`r.userId === 5` deletes exactly the three matching records (keys 3, 4, 5)
and leaves the other two untouched. -/
theorem cursor_remove_deletes_exactly_strict_true_witness :
    validStore demoStore = true ∧
    Operations.delete demoStore ⟨none, none, none, some (.fn demoPred), none, none⟩ =
      .ok ([⟨.num 1, .obj [("userId", .num 1)]⟩, ⟨.num 2, .obj [("userId", .num 2)]⟩],
        .keys [.num 3, .num 4, .num 5]) :=
  ⟨rfl, (cursor_remove_deletes_exactly_strict_true demoPred demoStore rfl).trans (by rfl)⟩

/-- C5 counterexample: a cursor remove that deletes one entry resolves with
the deleted key list `[1]`, not with an empty report — the final revision
pushes `request.source.key` per successful delete and resolves with that
list. -/
theorem cursor_remove_reports_nothing_counterexample :
    (Operations.delete [⟨.num 1, .obj [("userId", .num 5)]⟩]
        ⟨none, none, none, some (.fn demoPred), none, none⟩).map (fun p => p.2) =
      .ok (.keys [.num 1]) ∧
    OpResult.keys [.num 1] ≠ OpResult.keys [] :=
  ⟨rfl, by simp⟩

/-- C5 amended: a cursor remove that completes without error resolves with
the list of keys of the successfully deleted entries, one per deleted
entry in visitation order (not with an empty report). -/
theorem cursor_remove_reports_deleted_keys (f : JSValue → JSValue) (q : Option Query)
    (d : Option Direction) (store : Store) :
    (Operations.delete store ⟨none, none, none, some (.fn f), q, d⟩).map (fun p => p.2) =
      .ok (.keys (((applyDirection d (fun e => e.key)
        (storeRangeEntries store (Operations.createRange q))).filter
          (fun e => (f e.value).isStrictTrue)).map (fun e => e.key))) := by
  have hg : Operations.delete store ⟨none, none, none, some (.fn f), q, d⟩ =
      .ok (applyDeletes store (cursorDeleteRun f (applyDirection d (fun e => e.key)
          (storeRangeEntries store (Operations.createRange q)))),
        .keys ((cursorDeleteRun f (applyDirection d (fun e => e.key)
          (storeRangeEntries store (Operations.createRange q)))).map (fun e => e.key))) := by
    simp [Operations.delete, deleteChainOrder, deleteHandler, deleteGuard, deleteExec,
      Except.map]
  rw [hg, cursorDeleteRun_eq_filter]
  rfl

/-- C6 counterexample: the predicate returns the empty object `{}` — not a
non-empty object — yet the code, which tests only truthiness, still issues
the update-in-place (the record becomes `{}`) and appends its confirmation
key. -/
theorem cursor_upsert_nonempty_object_counterexample :
    specNonEmptyObject (.obj []) = false ∧
    Operations.put [⟨.num 1, .obj [("a", .num 1)]⟩]
        ⟨none, none, none, some (.fn fun _ => .obj []), none, none⟩ =
      .ok ([⟨.num 1, .obj []⟩], .keys [.num 1]) :=
  ⟨rfl, rfl⟩

/-- C6 amended: a cursor upsert issues an update-in-place sub-request for an
entry iff the predicate's result on that entry is truthy (any truthy value,
an empty object included); each successful sub-request appends its
confirmation key to the result sequence. -/
theorem cursor_upsert_updates_truthy (f : JSValue → JSValue) (store : Store)
    (hv : validStore store = true) :
    Operations.put store ⟨none, none, none, some (.fn f), none, none⟩ =
      .ok (store.map (fun e => if (f e.value).truthy then Entry.mk e.key (f e.value) else e),
        .keys ((store.filter (fun e => (f e.value).truthy)).map (fun e => e.key))) := by
  have hg : Operations.put store ⟨none, none, none, some (.fn f), none, none⟩ =
      .ok (applyUpdates store (cursorUpdateRun f store),
        .keys ((cursorUpdateRun f store).map (fun p => p.1))) := by
    simp [Operations.put, putChainOrder, putHandler, putGuard, putExec,
      Operations.createRange, applyDirection, Except.map]
  rw [hg, applyUpdates_cursorUpdateRun hv, cursorUpdateRun_keys]

/-- Witness for the amended C6: a one-record store updated by a predicate
returning the (truthy) empty object. -/
theorem cursor_upsert_updates_truthy_witness :
    validStore [⟨.num 1, .obj [("a", .num 1)]⟩] = true ∧
    Operations.put [⟨.num 1, .obj [("a", .num 1)]⟩]
        ⟨none, none, none, some (.fn fun _ => .obj []), none, none⟩ =
      .ok ([⟨.num 1, .obj []⟩], .keys [.num 1]) :=
  ⟨rfl, (cursor_upsert_updates_truthy (fun _ => .obj []) [⟨.num 1, .obj [("a", .num 1)]⟩]
    rfl).trans (by rfl)⟩
